import Mathlib

/-!
Verification development for the SkillSpire contest-management backend.

The definitions below are a shallow embedding of the route handlers in
src/index.js (the mature revision, with JWT-cookie authentication) and of
the legacy winner route in src/unnamed/part_000.  Document identifiers
(Mongo ObjectIds) are modelled as natural numbers, timestamps as natural
numbers, and each Mongo collection as a list of records.  findOne is
List.find?, updateOne updates the first matching element, updateMany maps
over all matching elements, insertOne appends, and a $set / $inc / $addToSet
delta is an explicit record update.  Absent optional JSON fields are
modelled with Option.
-/

namespace SkillSpire

/-- A user document (users collection): email is the natural key,
role is one of user / creator / admin, participatedContests and wonContests
hold contest ids. -/
structure User where
  email : String
  name : String
  photo : String
  bio : String
  role : String
  participatedContests : List Nat
  wonContests : List Nat
  deriving Repr, DecidableEq

/-- The denormalized winner snapshot stored on an ended contest.
The email field is Option because in the source it is `winnerUser?.email`,
which is undefined when the user record is absent. -/
structure WinnerInfo where
  name : String
  email : Option String
  photo : String
  deriving Repr, DecidableEq

/-- A contest document (contests collection). -/
structure Contest where
  id : Nat
  name : String
  type : String
  prize : String
  description : String
  creatorEmail : String
  participants : Int
  status : String
  createdAt : Nat
  updatedAt : Option Nat
  winner : Option WinnerInfo
  deriving Repr, DecidableEq

/-- A submission document (submissions collection). -/
structure Submission where
  id : Nat
  contestId : Nat
  userEmail : String
  content : String
  submittedAt : Nat
  isWinner : Bool
  deriving Repr, DecidableEq

/-- A payment document (payments collection). -/
structure Payment where
  contestId : Nat
  email : String
  amount : Int
  createdAt : Nat
  deriving Repr, DecidableEq

/-- The four persistent collections of skillspireDB. -/
structure DB where
  users : List User
  contests : List Contest
  submissions : List Submission
  payments : List Payment
  deriving Repr, DecidableEq

/-- The authenticated principal decoded from the JWT cookie:
the token carries exactly the email and role claims. -/
structure Principal where
  email : String
  role : String
  deriving Repr, DecidableEq

/-- Mongo updateOne semantics: apply f to the first element matching p. -/
def updateFirst (p : α → Bool) (f : α → α) : List α → List α
  | [] => []
  | x :: xs => if p x then f x :: xs else x :: updateFirst p f xs

/-- Mongo $addToSet semantics: append x unless already present. -/
def addToSet (x : Nat) (l : List Nat) : List Nat :=
  if l.contains x then l else l ++ [x]

/-- usersCollection.findOne on email. -/
def findUser (db : DB) (email : String) : Option User :=
  db.users.find? (fun u => u.email == email)

/-- contestsCollection.findOne on _id. -/
def findContest (db : DB) (id : Nat) : Option Contest :=
  db.contests.find? (fun c => c.id == id)

/-- submissionsCollection.findOne on _id. -/
def findSubmission (db : DB) (id : Nat) : Option Submission :=
  db.submissions.find? (fun s => s.id == id)

/-- Outcome of the verifyAdmin middleware (src/index.js lines 56-63). -/
inductive AdminCheck where
  | allowed
  | forbidden
  deriving Repr, DecidableEq

/-- verifyAdmin (src/index.js lines 56-63): re-fetches the caller's User
record by the email claim and requires the STORED role to be admin;
a missing user record or any non-admin stored role yields Forbidden.
The role claim inside the token is never consulted. -/
def verifyAdmin (db : DB) (p : Principal) : AdminCheck :=
  match findUser db p.email with
  | some u => if u.role == "admin" then AdminCheck.allowed else AdminCheck.forbidden
  | none => AdminCheck.forbidden

/-- The client-supplied JSON body of POST /contests.  The creatorEmail,
participants and status fields may be supplied by the client but are
overridden by the handler (object-spread followed by fixed fields). -/
structure ContestBody where
  name : String
  type : String
  prize : String
  description : String
  creatorEmail : Option String
  participants : Option Int
  status : Option String
  deriving Repr, DecidableEq

/-- POST /contests (src/index.js lines 299-312): inserts
  spread of req.body, then creatorEmail := authenticated email,
  participants := 0, status := pending, createdAt := now.
Later keys of the object literal win over the spread, so any
client-supplied creatorEmail / participants / status is overridden. -/
def postContest (db : DB) (callerEmail : String) (body : ContestBody)
    (now : Nat) (newId : Nat) : DB :=
  let base : Contest :=
    { id := newId
      name := body.name
      type := body.type
      prize := body.prize
      description := body.description
      creatorEmail := body.creatorEmail.getD ""
      participants := body.participants.getD 0
      status := body.status.getD ""
      createdAt := now
      updatedAt := none
      winner := none }
  let contest : Contest :=
    { base with
      creatorEmail := callerEmail
      participants := 0
      status := "pending"
      createdAt := now }
  { db with contests := db.contests ++ [contest] }

/-- Outcome of PUT /contests/:id. -/
inductive UpdateResult where
  | ok
  | notFound
  | forbidden
  deriving Repr, DecidableEq

/-- The content fields a creator may send in the body of PUT /contests/:id,
each optional; the handler $sets the spread body plus updatedAt. -/
structure ContestPatch where
  name : Option String
  type : Option String
  prize : Option String
  description : Option String
  deriving Repr, DecidableEq

/-- Apply the $set of PUT /contests/:id: spread of the body plus updatedAt. -/
def applyPatch (body : ContestPatch) (now : Nat) (c : Contest) : Contest :=
  { c with
    name := body.name.getD c.name
    type := body.type.getD c.type
    prize := body.prize.getD c.prize
    description := body.description.getD c.description
    updatedAt := some now }

/-- PUT /contests/:id (src/index.js lines 316-346): 404 if the contest is
absent; 403 Forbidden unless the caller is the creator AND the status is
pending; otherwise $set the body fields plus updatedAt. -/
def putContest (db : DB) (id : Nat) (callerEmail : String)
    (body : ContestPatch) (now : Nat) : UpdateResult × DB :=
  match findContest db id with
  | none => (UpdateResult.notFound, db)
  | some contest =>
    if contest.creatorEmail != callerEmail || contest.status != "pending" then
      (UpdateResult.forbidden, db)
    else
      (UpdateResult.ok,
        { db with contests := updateFirst (fun c => c.id == id) (applyPatch body now) db.contests })

/-- Outcome of PATCH /admin/contests/:id/status. -/
inductive StatusResult where
  | ok
  | invalidStatus
  deriving Repr, DecidableEq

/-- The $set delta of the admin status route: overwrite the status field. -/
def setStatus (status : String) (c : Contest) : Contest :=
  { c with status := status }

/-- PATCH /admin/contests/:id/status (src/index.js lines 381-395): 400 if
the requested status is not confirmed or rejected; otherwise $set the
status on the contest unconditionally — the CURRENT status is never read,
so no transition validation happens. -/
def adminSetStatus (db : DB) (id : Nat) (status : String) : StatusResult × DB :=
  if status == "confirmed" || status == "rejected" then
    (StatusResult.ok,
      { db with contests := updateFirst (fun c => c.id == id) (setStatus status) db.contests })
  else
    (StatusResult.invalidStatus, db)

/-- Outcome of POST /payments. -/
inductive PayResult where
  | ok
  | missingData
  | alreadyRegistered
  deriving Repr, DecidableEq

/-- The three-write success sequence of POST /payments (src/index.js lines
429-447): insert the Payment, $inc the contest's participants counter,
$addToSet the contest id into the caller's participatedContests. -/
def applyRegister (db : DB) (cid : Nat) (amt : Int) (email : String) (now : Nat) : DB :=
  let pay : Payment := { contestId := cid, email := email, amount := amt, createdAt := now }
  let db1 := { db with payments := db.payments ++ [pay] }
  let db2 := { db1 with contests := updateFirst (fun c => c.id == cid) (fun c => { c with participants := c.participants + 1 }) db1.contests }
  { db2 with users := updateFirst (fun u => u.email == email) (fun u => { u with participatedContests := addToSet cid u.participatedContests }) db2.users }

/-- POST /payments (src/index.js lines 407-454): validates contestId and
amount are present; rejects if a Payment on (contestId, caller email)
already exists; otherwise applies the three-write success sequence. -/
def register (db : DB) (contestId : Option Nat) (amount : Option Int)
    (email : String) (now : Nat) : PayResult × DB :=
  match contestId, amount with
  | some cid, some amt =>
    if (db.payments.find? (fun p => p.contestId == cid && p.email == email)).isSome then
      (PayResult.alreadyRegistered, db)
    else
      (PayResult.ok, applyRegister db cid amt email now)
  | _, _ => (PayResult.missingData, db)

/-- One row of the GET /submissions response: the submission document
joined ($lookup + $unwind with preserveNullAndEmptyArrays) with the
author's current name and photo. -/
structure SubmissionView where
  sub : Submission
  userName : Option String
  userPhoto : Option String
  deriving Repr, DecidableEq

/-- GET /submissions?contestId= (src/index.js lines 478-506): requires only
an authenticated caller; an invalid contestId yields the empty list;
otherwise returns ALL submissions of the contest joined with author
name/photo.  The caller's email is accepted but never compared with the
contest's creator — there is no ownership check in the handler. -/
def getSubmissions (db : DB) (callerEmail : String) (contestId : Option Nat) : List SubmissionView :=
  match contestId with
  | none => []
  | some cid =>
    (db.submissions.filter (fun s => s.contestId == cid)).map (fun s =>
      let author := findUser db s.userEmail
      { sub := s
        userName := author.map (fun u => u.name)
        userPhoto := author.map (fun u => u.photo) })

/-- Outcome of PATCH /submissions/:id/winner.  The crash constructor models
the unhandled TypeError raised when the submission's contest is absent:
the handler reads contest.creatorEmail without a null check, so the
request fails with an uncaught exception instead of a handled response. -/
inductive WinnerResult where
  | ok
  | notFound
  | forbidden
  | alreadyDecided
  | crash
  deriving Repr, DecidableEq

/-- The $set delta marking a submission as winner. -/
def markWinner (s : Submission) : Submission :=
  { s with isWinner := true }

/-- The $addToSet delta recording a won contest on a user. -/
def addWonContest (cid : Nat) (u : User) : User :=
  { u with wonContests := addToSet cid u.wonContests }

/-- Step 1 of a successful winner declaration (src/index.js line 581):
updateOne $sets isWinner on the chosen submission. -/
def setWinnerFlag (db : DB) (submissionId : Nat) : DB :=
  { db with submissions := updateFirst (fun s => s.id == submissionId) markWinner db.submissions }

/-- Step 2 of a successful winner declaration (src/index.js lines 584-587):
updateOne $addToSets the contest id into the submitter's wonContests. -/
def recordWin (db : DB) (submission : Submission) : DB :=
  { db with users := updateFirst (fun u => u.email == submission.userEmail) (addWonContest submission.contestId) db.users }

/-- The denormalized winner snapshot (src/index.js lines 589 and 597-601):
re-fetch the submitter and copy name / email / photo, with the source's
JS-falsy fallbacks — winnerUser?.name or Winner, winnerUser?.email
(undefined when the user is absent), winnerUser?.photo or empty string. -/
def winnerSnapshot (db : DB) (email : String) : WinnerInfo :=
  match findUser db email with
  | some u =>
    { name := if u.name == "" then "Winner" else u.name
      email := some u.email
      photo := if u.photo == "" then "" else u.photo }
  | none => { name := "Winner", email := none, photo := "" }

/-- The $set delta ending a contest with its winner snapshot. -/
def endedWith (snap : WinnerInfo) (c : Contest) : Contest :=
  { c with status := "ended", winner := some snap }

/-- Step 3 of a successful winner declaration (src/index.js lines 592-604):
updateOne $sets the contest to ended and attaches the winner snapshot. -/
def closeContest (db : DB) (contestId : Nat) (snap : WinnerInfo) : DB :=
  { db with contests := updateFirst (fun c => c.id == contestId) (endedWith snap) db.contests }

/-- The full write sequence of a successful winner declaration
(src/index.js lines 580-604): flag the submission, record the win on the
submitter, then close the contest with the snapshot read AFTER the
wonContests update. -/
def applyWin (db : DB) (submissionId : Nat) (submission : Submission) : DB :=
  let db2 := recordWin (setWinnerFlag db submissionId) submission
  closeContest db2 submission.contestId (winnerSnapshot db2 submission.userEmail)

/-- PATCH /submissions/:id/winner (src/index.js lines 563-607): resolve the
submission (absent → NotFound), then its contest — the handler dereferences
contest.creatorEmail without checking for null, so an absent contest is an
unhandled TypeError (crash), not a 404; Forbidden unless the caller is the
contest's creator; AlreadyDecided if any submission of the contest already
carries the winner flag; otherwise apply the success write sequence. -/
def declareWinner (db : DB) (submissionId : Nat) (callerEmail : String) : WinnerResult × DB :=
  match findSubmission db submissionId with
  | none => (WinnerResult.notFound, db)
  | some submission =>
    match findContest db submission.contestId with
    | none => (WinnerResult.crash, db)
    | some contest =>
      if contest.creatorEmail != callerEmail then
        (WinnerResult.forbidden, db)
      else if (db.submissions.find? (fun s => s.contestId == submission.contestId && s.isWinner)).isSome then
        (WinnerResult.alreadyDecided, db)
      else
        (WinnerResult.ok, applyWin db submissionId submission)

/-- Outcome of the legacy PATCH /submissions/winner/:id route. -/
inductive LegacyWinnerResult where
  | ok
  | notFound
  deriving Repr, DecidableEq

/-- The per-document effect of the legacy route's updateMany
(src/unnamed/part_000 lines 289-292): clear the winner flag on every
submission of the given contest, leave the rest untouched. -/
def clearIfSameContest (cid : Nat) (s : Submission) : Submission :=
  if s.contestId == cid then { s with isWinner := false } else s

/-- Legacy PATCH /submissions/winner/:id (src/unnamed/part_000 lines
278-305): resolve the submission (absent → 404); then updateMany clears the
winner flag on EVERY submission of that contest (the defensive reset),
updateOne sets the flag on the chosen submission, and $addToSet records the
win on the submitter.  This revision performs no creator check and no
already-decided check. -/
def legacyDeclareWinner (db : DB) (submissionId : Nat) : LegacyWinnerResult × DB :=
  match findSubmission db submissionId with
  | none => (LegacyWinnerResult.notFound, db)
  | some submission =>
    let db1 := { db with submissions := db.submissions.map (clearIfSameContest submission.contestId) }
    let db2 := { db1 with submissions := updateFirst (fun s => s.id == submissionId) markWinner db1.submissions }
    let db3 := { db2 with users := updateFirst (fun u => u.email == submission.userEmail) (addWonContest submission.contestId) db2.users }
    (LegacyWinnerResult.ok, db3)

/-- The single-winner invariant of the spec: for every contest, at most one
submission carries the winner flag. -/
def atMostOneWinner (db : DB) : Prop :=
  ∀ cid : Nat, (db.submissions.filter (fun t => t.contestId == cid && t.isWinner)).length ≤ 1

/-! Helper lemmas about updateFirst, find? and addToSet. -/

theorem updateFirst_append_cons {α : Type} {p : α → Bool} {f : α → α}
    {l₁ l₂ : List α} {a : α} (h₁ : ∀ x ∈ l₁, p x = false) (ha : p a = true) :
    updateFirst p f (l₁ ++ a :: l₂) = l₁ ++ f a :: l₂ := by
  induction l₁ with
  | nil => simp [updateFirst, ha]
  | cons x xs ih =>
    have hx := h₁ x (List.mem_cons_self x xs)
    have ih2 := ih (fun y hy => h₁ y (List.mem_cons_of_mem x hy))
    simp [updateFirst, hx, ih2]

theorem find?_decomp {α : Type} {p : α → Bool} {l : List α} {a : α}
    (h : l.find? p = some a) :
    ∃ l₁ l₂, l = l₁ ++ a :: l₂ ∧ ∀ x ∈ l₁, p x = false := by
  induction l with
  | nil => simp [List.find?] at h
  | cons x xs ih =>
    by_cases hx : p x = true
    · rw [List.find?_cons_of_pos _ hx] at h
      obtain rfl : x = a := by injection h
      exact ⟨[], xs, rfl, by simp⟩
    · rw [List.find?_cons_of_neg _ hx] at h
      obtain ⟨l₁, l₂, rfl, h₁⟩ := ih h
      refine ⟨x :: l₁, l₂, rfl, ?_⟩
      intro y hy
      rcases List.mem_cons.mp hy with rfl | hy2
      · exact Bool.not_eq_true _ ▸ Bool.eq_false_iff.mpr (fun hc => hx (by simp [hc]))
      · exact h₁ y hy2

theorem find?_append_of_none {α : Type} {p : α → Bool} {l₁ l₂ : List α}
    (h : ∀ x ∈ l₁, p x = false) : (l₁ ++ l₂).find? p = l₂.find? p := by
  induction l₁ with
  | nil => rfl
  | cons x xs ih =>
    have hx := h x (List.mem_cons_self x xs)
    rw [List.cons_append, List.find?_cons_of_neg _ (by simp [hx]),
      ih (fun y hy => h y (List.mem_cons_of_mem x hy))]

theorem find?_append_cons {α : Type} {p : α → Bool} {l₁ l₂ : List α} {a : α}
    (h₁ : ∀ x ∈ l₁, p x = false) (ha : p a = true) :
    (l₁ ++ a :: l₂).find? p = some a := by
  rw [find?_append_of_none h₁, List.find?_cons_of_pos _ ha]

theorem mem_addToSet_self (x : Nat) (l : List Nat) : x ∈ addToSet x l := by
  unfold addToSet
  rcases hc : l.contains x with _ | _
  · simp [hc]
  · simp [hc, List.elem_iff.mp hc]

@[simp] theorem markWinner_id (s : Submission) : (markWinner s).id = s.id := rfl

@[simp] theorem markWinner_contestId (s : Submission) : (markWinner s).contestId = s.contestId := rfl

@[simp] theorem markWinner_isWinner (s : Submission) : (markWinner s).isWinner = true := rfl

@[simp] theorem markWinner_userEmail (s : Submission) : (markWinner s).userEmail = s.userEmail := rfl

@[simp] theorem endedWith_id (snap : WinnerInfo) (c : Contest) : (endedWith snap c).id = c.id := rfl

@[simp] theorem endedWith_creatorEmail (snap : WinnerInfo) (c : Contest) :
    (endedWith snap c).creatorEmail = c.creatorEmail := rfl

@[simp] theorem endedWith_status (snap : WinnerInfo) (c : Contest) :
    (endedWith snap c).status = "ended" := rfl

@[simp] theorem endedWith_winner (snap : WinnerInfo) (c : Contest) :
    (endedWith snap c).winner = some snap := rfl

@[simp] theorem addWonContest_email (cid : Nat) (u : User) : (addWonContest cid u).email = u.email := rfl

@[simp] theorem addWonContest_name (cid : Nat) (u : User) : (addWonContest cid u).name = u.name := rfl

@[simp] theorem addWonContest_photo (cid : Nat) (u : User) : (addWonContest cid u).photo = u.photo := rfl

@[simp] theorem addWonContest_wonContests (cid : Nat) (u : User) :
    (addWonContest cid u).wonContests = addToSet cid u.wonContests := rfl

@[simp] theorem setStatus_id (st : String) (c : Contest) : (setStatus st c).id = c.id := rfl

@[simp] theorem setStatus_status (st : String) (c : Contest) : (setStatus st c).status = st := rfl

@[simp] theorem clearIfSameContest_id (cid : Nat) (s : Submission) :
    (clearIfSameContest cid s).id = s.id := by
  unfold clearIfSameContest; split <;> rfl

@[simp] theorem clearIfSameContest_contestId (cid : Nat) (s : Submission) :
    (clearIfSameContest cid s).contestId = s.contestId := by
  unfold clearIfSameContest; split <;> rfl

theorem applyWin_submissions (db : DB) (sid : Nat) (s : Submission) :
    (applyWin db sid s).submissions = updateFirst (fun t => t.id == sid) markWinner db.submissions := rfl

theorem applyWin_users (db : DB) (sid : Nat) (s : Submission) :
    (applyWin db sid s).users =
      updateFirst (fun u => u.email == s.userEmail) (addWonContest s.contestId) db.users := rfl

theorem applyWin_contests (db : DB) (sid : Nat) (s : Submission) :
    (applyWin db sid s).contests =
      updateFirst (fun c => c.id == s.contestId)
        (endedWith (winnerSnapshot (recordWin (setWinnerFlag db sid) s) s.userEmail)) db.contests := rfl

theorem applyWin_payments (db : DB) (sid : Nat) (s : Submission) :
    (applyWin db sid s).payments = db.payments := rfl

theorem applyRegister_payments (db : DB) (cid : Nat) (amt : Int) (email : String) (now : Nat) :
    (applyRegister db cid amt email now).payments =
      db.payments ++ [{ contestId := cid, email := email, amount := amt, createdAt := now }] := rfl

theorem findContest_updateFirst {db : DB} {id : Nat} {c : Contest} (f : Contest → Contest)
    (hf : ∀ x, (f x).id = x.id) (hc : findContest db id = some c) :
    (updateFirst (fun x => x.id == id) f db.contests).find? (fun x => x.id == id) = some (f c) := by
  have hcid : (c.id == id) = true :=
    @List.find?_some Contest (fun x => x.id == id) c db.contests hc
  obtain ⟨M₁, M₂, hM, hM₁⟩ :=
    find?_decomp (show db.contests.find? (fun x => x.id == id) = some c from hc)
  rw [hM, updateFirst_append_cons hM₁ hcid]
  apply find?_append_cons hM₁
  rw [hf]
  exact hcid

theorem declareWinner_ok_inv {db db' : DB} {sid : Nat} {caller : String}
    (h : declareWinner db sid caller = (WinnerResult.ok, db')) :
    ∃ s c, findSubmission db sid = some s ∧ findContest db s.contestId = some c ∧
      c.creatorEmail = caller ∧
      db.submissions.find? (fun t => t.contestId == s.contestId && t.isWinner) = none ∧
      db' = applyWin db sid s := by
  unfold declareWinner at h
  split at h
  · simp at h
  · rename_i s heqs
    split at h
    · simp at h
    · rename_i c heqc
      split at h
      · simp at h
      · rename_i hne
        split at h
        · simp at h
        · rename_i hnw
          have he : c.creatorEmail = caller := by simpa using hne
          have hw : db.submissions.find? (fun t => t.contestId == s.contestId && t.isWinner) = none := by
            simpa [Option.not_isSome_iff_eq_none] using hnw
          simp only [Prod.mk.injEq, true_and] at h
          exact ⟨s, c, heqs, heqc, he, hw, h.symm⟩

/-- C1: a successful declareWinner call preserves the at-most-one-winner
invariant and leaves the chosen submission flagged; a second declareWinner
call by the same caller on another submission of the same contest returns
AlreadyDecided and leaves the store — in particular the first submission's
winner flag — unchanged. -/
theorem declareWinner_at_most_one_winner
    (db db1 : DB) (sid1 : Nat) (caller : String) (s1 : Submission)
    (hInv : atMostOneWinner db)
    (hs1 : findSubmission db sid1 = some s1)
    (h1 : declareWinner db sid1 caller = (WinnerResult.ok, db1)) :
    atMostOneWinner db1 ∧
    findSubmission db1 sid1 = some (markWinner s1) ∧
    (∀ sid2 s2, sid2 ≠ sid1 → findSubmission db1 sid2 = some s2 →
      s2.contestId = s1.contestId →
      declareWinner db1 sid2 caller = (WinnerResult.alreadyDecided, db1)) := by
  obtain ⟨s, c, hs, hc, he, hw, hdb⟩ := declareWinner_ok_inv h1
  rw [hs1] at hs
  injection hs with hss
  subst hss
  subst hdb
  have hs1' : db.submissions.find? (fun t => t.id == sid1) = some s1 := hs1
  have hid : (s1.id == sid1) = true :=
    @List.find?_some Submission (fun t => t.id == sid1) s1 db.submissions hs1'
  obtain ⟨L₁, L₂, hL, hL₁⟩ := find?_decomp hs1'
  have hsubs : (applyWin db sid1 s1).submissions = L₁ ++ markWinner s1 :: L₂ := by
    rw [applyWin_submissions, hL, updateFirst_append_cons hL₁ hid]
  have hnone := List.find?_eq_none.mp hw
  refine ⟨?_, ?_, ?_⟩
  · intro cid
    rw [show (applyWin db sid1 s1).submissions = _ from hsubs]
    by_cases hcid : s1.contestId = cid
    · have hnoneC : ∀ x ∈ db.submissions, ¬(x.contestId == cid && x.isWinner) = true := by
        intro x hx
        have hnx := hnone x hx
        rwa [hcid] at hnx
      have hf1 : List.filter (fun t => t.contestId == cid && t.isWinner) L₁ = [] :=
        List.filter_eq_nil_iff.mpr (fun x hx =>
          hnoneC x (by rw [hL]; exact List.mem_append_left _ hx))
      have hf2 : List.filter (fun t => t.contestId == cid && t.isWinner) L₂ = [] :=
        List.filter_eq_nil_iff.mpr (fun x hx =>
          hnoneC x (by rw [hL]; exact List.mem_append_right _ (List.mem_cons_of_mem _ hx)))
      rw [List.filter_append, List.filter_cons, hf1, hf2]
      split <;> simp
    · have hq : ((markWinner s1).contestId == cid && (markWinner s1).isWinner) = false := by
        simp [hcid]
      rw [List.filter_append, List.filter_cons, hq]
      simp only [Bool.false_eq_true, if_false]
      have hsl : (List.filter (fun t : Submission => t.contestId == cid && t.isWinner) (L₁ ++ L₂)).Sublist
          (List.filter (fun t : Submission => t.contestId == cid && t.isWinner) (L₁ ++ s1 :: L₂)) :=
        List.Sublist.filter _ (List.Sublist.append_left (List.sublist_cons_self _ _) L₁)
      have hbound := hInv cid
      rw [hL] at hbound
      calc (List.filter (fun t : Submission => t.contestId == cid && t.isWinner) L₁ ++
              List.filter (fun t : Submission => t.contestId == cid && t.isWinner) L₂).length
          = (List.filter (fun t : Submission => t.contestId == cid && t.isWinner) (L₁ ++ L₂)).length := by
            rw [List.filter_append]
        _ ≤ (List.filter (fun t : Submission => t.contestId == cid && t.isWinner) (L₁ ++ s1 :: L₂)).length :=
            hsl.length_le
        _ ≤ 1 := hbound
  · show (applyWin db sid1 s1).submissions.find? (fun t => t.id == sid1) = some (markWinner s1)
    rw [hsubs]
    exact find?_append_cons hL₁ hid
  · intro sid2 s2 hne hfs2 hcid2
    have hc' : db.contests.find? (fun x => x.id == s1.contestId) = some c := hc
    have hcidc : (c.id == s1.contestId) = true :=
      @List.find?_some Contest (fun x => x.id == s1.contestId) c db.contests hc'
    obtain ⟨M₁, M₂, hM, hM₁⟩ := find?_decomp hc'
    have hcon : (applyWin db sid1 s1).contests =
        M₁ ++ endedWith (winnerSnapshot (recordWin (setWinnerFlag db sid1) s1) s1.userEmail) c :: M₂ := by
      rw [applyWin_contests, hM, updateFirst_append_cons hM₁ hcidc]
    have hfc1 : findContest (applyWin db sid1 s1) s2.contestId =
        some (endedWith (winnerSnapshot (recordWin (setWinnerFlag db sid1) s1) s1.userEmail) c) := by
      show (applyWin db sid1 s1).contests.find? (fun x => x.id == s2.contestId) = _
      rw [hcid2, hcon]
      exact find?_append_cons hM₁ hcidc
    have hwin : ((applyWin db sid1 s1).submissions.find?
        (fun t => t.contestId == s2.contestId && t.isWinner)).isSome = true := by
      apply List.find?_isSome.mpr
      refine ⟨markWinner s1, ?_, ?_⟩
      · rw [hsubs]
        exact List.mem_append_right _ (List.mem_cons_self _ _)
      · simp [hcid2]
    simp [declareWinner, hfs2, hfc1, he, hwin]

/-- C2 amended: when declareWinner succeeds for submission S of contest C
submitted by user U, afterwards S.isWinner is true, C's id is in U's
wonContests, C.status is ended, and C.winner is a snapshot taken from U's
record as read at declaration time: it carries U's email and photo, and
U's name when that name is non-empty — a JS-falsy (empty) stored name is
replaced by the literal Winner in the snapshot. -/
theorem declareWinner_success_effects
    (db db' : DB) (sid : Nat) (caller : String) (s : Submission) (u : User)
    (hs : findSubmission db sid = some s)
    (hu : findUser db s.userEmail = some u)
    (h1 : declareWinner db sid caller = (WinnerResult.ok, db')) :
    findSubmission db' sid = some (markWinner s) ∧
    (∃ u', findUser db' s.userEmail = some u' ∧ s.contestId ∈ u'.wonContests) ∧
    (∃ c', findContest db' s.contestId = some c' ∧ c'.status = "ended" ∧
      c'.winner = some { name := if u.name = "" then "Winner" else u.name,
                         email := some u.email, photo := u.photo }) := by
  obtain ⟨s0, c, hs0, hc, he, hw, hdb⟩ := declareWinner_ok_inv h1
  rw [hs] at hs0
  injection hs0 with hss
  subst hss
  subst hdb
  have hs' : db.submissions.find? (fun t => t.id == sid) = some s := hs
  have hid : (s.id == sid) = true :=
    @List.find?_some Submission (fun t => t.id == sid) s db.submissions hs'
  obtain ⟨L₁, L₂, hL, hL₁⟩ := find?_decomp hs'
  have hsubs : (applyWin db sid s).submissions = L₁ ++ markWinner s :: L₂ := by
    rw [applyWin_submissions, hL, updateFirst_append_cons hL₁ hid]
  have hu' : db.users.find? (fun x => x.email == s.userEmail) = some u := hu
  have hue : (u.email == s.userEmail) = true :=
    @List.find?_some User (fun x => x.email == s.userEmail) u db.users hu'
  obtain ⟨U₁, U₂, hU, hU₁⟩ := find?_decomp hu'
  have husers : (applyWin db sid s).users = U₁ ++ addWonContest s.contestId u :: U₂ := by
    rw [applyWin_users, hU, updateFirst_append_cons hU₁ hue]
  refine ⟨?_, ?_, ?_⟩
  · show (applyWin db sid s).submissions.find? (fun t => t.id == sid) = some (markWinner s)
    rw [hsubs]
    exact find?_append_cons hL₁ hid
  · refine ⟨addWonContest s.contestId u, ?_, ?_⟩
    · show (applyWin db sid s).users.find? (fun x => x.email == s.userEmail) = _
      rw [husers]
      exact find?_append_cons hU₁ hue
    · simp [mem_addToSet_self]
  · have hc' : db.contests.find? (fun x => x.id == s.contestId) = some c := hc
    have hcid : (c.id == s.contestId) = true :=
      @List.find?_some Contest (fun x => x.id == s.contestId) c db.contests hc'
    obtain ⟨M₁, M₂, hM, hM₁⟩ := find?_decomp hc'
    have hu2 : findUser (recordWin (setWinnerFlag db sid) s) s.userEmail =
        some (addWonContest s.contestId u) := by
      show (recordWin (setWinnerFlag db sid) s).users.find? (fun x => x.email == s.userEmail) = _
      have hru : (recordWin (setWinnerFlag db sid) s).users = U₁ ++ addWonContest s.contestId u :: U₂ := by
        show updateFirst (fun x => x.email == s.userEmail) (addWonContest s.contestId) db.users = _
        rw [hU, updateFirst_append_cons hU₁ hue]
      rw [hru]
      exact find?_append_cons hU₁ hue
    have hphoto : (if (u.photo == "") = true then "" else u.photo) = u.photo := by
      by_cases hp : u.photo = ""
      · simp [hp]
      · simp [hp]
    have hsnap : winnerSnapshot (recordWin (setWinnerFlag db sid) s) s.userEmail =
        { name := if u.name = "" then "Winner" else u.name,
          email := some u.email, photo := u.photo } := by
      unfold winnerSnapshot
      rw [hu2]
      simp [hphoto]
      exact fun hp => hp.symm
    have hcon : (applyWin db sid s).contests =
        M₁ ++ endedWith { name := if u.name = "" then "Winner" else u.name, email := some u.email, photo := u.photo } c :: M₂ := by
      rw [applyWin_contests, hsnap, hM, updateFirst_append_cons hM₁ hcid]
    refine ⟨endedWith { name := if u.name = "" then "Winner" else u.name, email := some u.email, photo := u.photo } c, ?_, rfl, rfl⟩
    show (applyWin db sid s).contests.find? (fun x => x.id == s.contestId) = _
    rw [hcon]
    exact find?_append_cons hM₁ hcid

/-! A concrete sample store used by the witnesses. -/

/-- Sample creator. -/
def alice : User :=
  { email := "alice@x", name := "Alice", photo := "a.png", bio := "", role := "user",
    participatedContests := [], wonContests := [] }

/-- Sample participant who submitted entry 1. -/
def bob : User :=
  { email := "bob@x", name := "Bob", photo := "b.png", bio := "", role := "user",
    participatedContests := [1], wonContests := [] }

/-- Sample participant who submitted entry 2. -/
def carol : User :=
  { email := "carol@x", name := "Carol", photo := "c.png", bio := "", role := "user",
    participatedContests := [1], wonContests := [] }

/-- Sample confirmed contest created by alice. -/
def contest1 : Contest :=
  { id := 1, name := "Logo", type := "design", prize := "100", description := "draw a logo",
    creatorEmail := "alice@x", participants := 2, status := "confirmed", createdAt := 0,
    updatedAt := none, winner := none }

/-- Sample submission by bob for contest 1. -/
def sub1 : Submission :=
  { id := 1, contestId := 1, userEmail := "bob@x", content := "entry one", submittedAt := 1,
    isWinner := false }

/-- Sample submission by carol for contest 1. -/
def sub2 : Submission :=
  { id := 2, contestId := 1, userEmail := "carol@x", content := "entry two", submittedAt := 2,
    isWinner := false }

/-- The sample store. -/
def exDB : DB :=
  { users := [alice, bob, carol], contests := [contest1], submissions := [sub1, sub2],
    payments := [] }

/-- Witness for C1: on the sample store, alice declares submission 1 the
winner of contest 1; the invariant holds afterwards, submission 1 is
flagged, and declaring submission 2 afterwards returns AlreadyDecided with
the store unchanged. -/
theorem declareWinner_at_most_one_winner_witness :
    atMostOneWinner (declareWinner exDB 1 "alice@x").2 ∧
    findSubmission (declareWinner exDB 1 "alice@x").2 1 = some (markWinner sub1) ∧
    declareWinner (declareWinner exDB 1 "alice@x").2 2 "alice@x" =
      (WinnerResult.alreadyDecided, (declareWinner exDB 1 "alice@x").2) := by
  have h := declareWinner_at_most_one_winner exDB (declareWinner exDB 1 "alice@x").2 1 "alice@x" sub1
    (by intro cid; simp [exDB, sub1, sub2])
    (by decide)
    (by decide)
  exact ⟨h.1, h.2.1, h.2.2 2 sub2 (by decide) (by decide) (by decide)⟩

/-- Witness for C2: the same concrete declaration leaves submission 1
flagged, contest 1 in bob's wonContests, and contest 1 ended with bob's
snapshot. -/
theorem declareWinner_success_effects_witness :
    findSubmission (declareWinner exDB 1 "alice@x").2 1 = some (markWinner sub1) ∧
    (∃ u', findUser (declareWinner exDB 1 "alice@x").2 sub1.userEmail = some u' ∧
      sub1.contestId ∈ u'.wonContests) ∧
    (∃ c', findContest (declareWinner exDB 1 "alice@x").2 sub1.contestId = some c' ∧
      c'.status = "ended" ∧
      c'.winner = some { name := if bob.name = "" then "Winner" else bob.name,
                         email := some bob.email, photo := bob.photo }) :=
  declareWinner_success_effects exDB (declareWinner exDB 1 "alice@x").2 1 "alice@x" sub1 bob
    (by decide) (by decide) (by decide)

/-- Sample user whose stored display name is empty, as POST /jwt creates
when the client supplies no name. -/
def dana : User :=
  { email := "dana@x", name := "", photo := "", bio := "", role := "user",
    participatedContests := [1], wonContests := [] }

/-- Sample submission by dana for contest 1. -/
def sub3 : Submission :=
  { id := 3, contestId := 1, userEmail := "dana@x", content := "entry three", submittedAt := 3,
    isWinner := false }

/-- Sample store where the only submission of contest 1 is dana's. -/
def exDB2 : DB :=
  { users := [alice, dana], contests := [contest1], submissions := [sub3], payments := [] }

/-- C2 counterexample: dana's stored name is empty; alice successfully
declares dana's submission the winner, and the stored snapshot carries the
literal Winner as its name, not dana's name — so the snapshot does not
contain U's name for every winning user U as the claim states. -/
theorem declareWinner_snapshot_name_counterexample :
    dana.name = "" ∧
    (declareWinner exDB2 3 "alice@x").1 = WinnerResult.ok ∧
    (findContest (declareWinner exDB2 3 "alice@x").2 1).map Contest.winner =
      some (some { name := "Winner", email := some "dana@x", photo := "" }) ∧
    "Winner" ≠ dana.name := by
  decide

/-- Sample contest already in the terminal state ended. -/
def endedContest : Contest :=
  { id := 9, name := "Old", type := "misc", prize := "5", description := "finished",
    creatorEmail := "alice@x", participants := 3, status := "ended", createdAt := 0,
    updatedAt := none, winner := none }

/-- Sample store whose only contest is ended. -/
def exDB3 : DB :=
  { users := [alice], contests := [endedContest], submissions := [], payments := [] }

/-- C3 counterexample: the admin status route applies a transition OUT of
the terminal state ended — on a store whose only contest is ended, setting
status confirmed succeeds and changes the stored status, instead of failing
with an invalid-transition error and leaving the status unchanged. -/
theorem adminSetStatus_terminal_escape_counterexample :
    (findContest exDB3 9).map Contest.status = some "ended" ∧
    (adminSetStatus exDB3 9 "confirmed").1 = StatusResult.ok ∧
    (findContest (adminSetStatus exDB3 9 "confirmed").2 9).map Contest.status = some "confirmed" := by
  decide

/-- C3 amended: the admin status route validates only the TARGET value — a
target other than confirmed / rejected fails with an invalid-status error
and leaves the store unchanged — and applies an allowed target
unconditionally, whatever the current status (so rejected and ended are not
terminal); a successful winner declaration likewise moves the contest to
ended without checking its current status. -/
theorem status_transition_amended :
    (∀ db id st, st ≠ "confirmed" → st ≠ "rejected" →
      adminSetStatus db id st = (StatusResult.invalidStatus, db)) ∧
    (∀ db id st c, findContest db id = some c → (st = "confirmed" ∨ st = "rejected") →
      (adminSetStatus db id st).1 = StatusResult.ok ∧
      (findContest (adminSetStatus db id st).2 id).map Contest.status = some st) ∧
    (∀ db sid caller db' s, declareWinner db sid caller = (WinnerResult.ok, db') →
      findSubmission db sid = some s →
      (findContest db' s.contestId).map Contest.status = some "ended") := by
  refine ⟨?_, ?_, ?_⟩
  · intro db id st h1 h2
    simp [adminSetStatus, h1, h2]
  · intro db id st c hc hst
    have hfind : (updateFirst (fun x => x.id == id) (setStatus st) db.contests).find?
        (fun x => x.id == id) = some (setStatus st c) :=
      findContest_updateFirst (setStatus st) (fun x => rfl) hc
    rcases hst with rfl | rfl
    · constructor
      · simp [adminSetStatus]
      · show ((adminSetStatus db id "confirmed").2.contests.find? (fun x => x.id == id)).map Contest.status = _
        simp only [adminSetStatus]
        simp [hfind]
    · constructor
      · simp [adminSetStatus]
      · show ((adminSetStatus db id "rejected").2.contests.find? (fun x => x.id == id)).map Contest.status = _
        simp only [adminSetStatus]
        simp [hfind]
  · intro db sid caller db' s h1 hs
    obtain ⟨s0, c, hs0, hc, he, hw, hdb⟩ := declareWinner_ok_inv h1
    rw [hs] at hs0
    injection hs0 with hss
    subst hss
    subst hdb
    have hfind : (updateFirst (fun x => x.id == s.contestId)
        (endedWith (winnerSnapshot (recordWin (setWinnerFlag db sid) s) s.userEmail)) db.contests).find?
        (fun x => x.id == s.contestId) =
        some (endedWith (winnerSnapshot (recordWin (setWinnerFlag db sid) s) s.userEmail) c) :=
      findContest_updateFirst _ (fun x => rfl) hc
    show ((applyWin db sid s).contests.find? (fun x => x.id == s.contestId)).map Contest.status = _
    rw [applyWin_contests, hfind]
    rfl

/-- Witness for the amended C3: a bad target is rejected on the sample
ended-contest store; a confirmed target is applied to the ended contest;
and the concrete winner declaration of the C1 witness ends contest 1. -/
theorem status_transition_amended_witness :
    adminSetStatus exDB3 9 "weird" = (StatusResult.invalidStatus, exDB3) ∧
    ((adminSetStatus exDB3 9 "confirmed").1 = StatusResult.ok ∧
      (findContest (adminSetStatus exDB3 9 "confirmed").2 9).map Contest.status = some "confirmed") ∧
    (findContest (declareWinner exDB 1 "alice@x").2 sub1.contestId).map Contest.status = some "ended" :=
  ⟨status_transition_amended.1 exDB3 9 "weird" (by decide) (by decide),
   status_transition_amended.2.1 exDB3 9 "confirmed" endedContest (by decide) (Or.inl rfl),
   status_transition_amended.2.2 exDB 1 "alice@x" (declareWinner exDB 1 "alice@x").2 sub1
     (by decide) (by decide)⟩

/-- C4: a second register call with identical arguments after a successful
first call returns the duplicate-registration conflict and returns the
store exactly as the first call left it — no second Payment is inserted and
the participants counter and participatedContests set are untouched. -/
theorem register_duplicate_conflict
    (db db1 : DB) (cid : Nat) (amt : Int) (email : String) (now now2 : Nat)
    (h1 : register db (some cid) (some amt) email now = (PayResult.ok, db1)) :
    register db1 (some cid) (some amt) email now2 = (PayResult.alreadyRegistered, db1) := by
  unfold register at h1
  split at h1
  · rename_i cid2 amt2 heq1 heq2
    injection heq1 with hcid2
    injection heq2 with hamt2
    subst hcid2
    subst hamt2
    split at h1
    · simp at h1
    · rename_i hdup
      simp only [Prod.mk.injEq, true_and] at h1
      subst h1
      have hmem : ((applyRegister db cid amt email now).payments.find?
          (fun p => p.contestId == cid && p.email == email)).isSome = true := by
        rw [applyRegister_payments]
        apply List.find?_isSome.mpr
        exact ⟨{ contestId := cid, email := email, amount := amt, createdAt := now },
          List.mem_append_right _ (List.mem_cons_self _ _), by simp⟩
      simp [register, hmem]
  · rename_i hcontra
    exact (hcontra cid amt rfl rfl).elim

/-- Witness for C4: bob registers for contest 1 on the sample store; the
identical second call returns the conflict and the same store. -/
theorem register_duplicate_conflict_witness :
    register (register exDB (some 1) (some 10) "bob@x" 5).2 (some 1) (some 10) "bob@x" 6 =
      (PayResult.alreadyRegistered, (register exDB (some 1) (some 10) "bob@x" 5).2) :=
  register_duplicate_conflict exDB ((register exDB (some 1) (some 10) "bob@x" 5).2)
    1 10 "bob@x" 5 6 (by decide)

/-- Sample submission whose contest id 42 has no contest document. -/
def orphanSub : Submission :=
  { id := 7, contestId := 42, userEmail := "bob@x", content := "orphan", submittedAt := 3,
    isWinner := false }

/-- Sample store containing a submission but not its contest. -/
def exDB6 : DB :=
  { users := [alice, bob], contests := [], submissions := [orphanSub], payments := [] }

/-- C6 (code-bug evaluation): with submission 7 present but its contest 42
absent, the handler dereferences contest.creatorEmail on null — the
embedded declareWinner returns crash, an unhandled TypeError, not the
NotFound response the spec promises for an absent contest and not any of
Ok / NotFound / Forbidden / AlreadyDecided. -/
theorem declareWinner_missing_contest_crash :
    declareWinner exDB6 7 "alice@x" = (WinnerResult.crash, exDB6) ∧
    WinnerResult.crash ≠ WinnerResult.notFound := by
  decide

/-- Exactly one winner within a contest: among the submissions of contest
cid, a submission carries the winner flag precisely when it is the chosen
one. -/
def exactlyWinner (db : DB) (cid sid : Nat) : Prop :=
  ∀ t ∈ db.submissions, t.contestId = cid → (t.isWinner = true ↔ t.id = sid)

/-- C5: the legacy winner route performs the defensive reset — on success
the winner flag is first cleared on every submission of the chosen
submission's contest and then set on the chosen one, so that immediately
afterwards exactly the chosen submission of that contest carries the flag,
even when another submission carried it beforehand. -/
theorem legacy_winner_defensive_reset
    (db : DB) (sid : Nat) (s : Submission)
    (hnodup : (db.submissions.map Submission.id).Nodup)
    (hs : findSubmission db sid = some s) :
    (legacyDeclareWinner db sid).1 = LegacyWinnerResult.ok ∧
    exactlyWinner (legacyDeclareWinner db sid).2 s.contestId sid := by
  have hs' : db.submissions.find? (fun t => t.id == sid) = some s := hs
  have hid : (s.id == sid) = true :=
    @List.find?_some Submission (fun t => t.id == sid) s db.submissions hs'
  have hsid : s.id = sid := by simpa using hid
  obtain ⟨L₁, L₂, hL, hL₁⟩ := find?_decomp hs'
  have hnod2 : s.id ∉ L₂.map Submission.id := by
    have h := hnodup
    rw [hL, List.map_append, List.map_cons] at h
    exact (List.nodup_cons.mp h.of_append_right).1
  have hmap : db.submissions.map (clearIfSameContest s.contestId) =
      L₁.map (clearIfSameContest s.contestId) ++
        clearIfSameContest s.contestId s :: L₂.map (clearIfSameContest s.contestId) := by
    rw [hL]
    simp
  have hupd : updateFirst (fun t => t.id == sid) markWinner
      (db.submissions.map (clearIfSameContest s.contestId)) =
      L₁.map (clearIfSameContest s.contestId) ++
        markWinner (clearIfSameContest s.contestId s) :: L₂.map (clearIfSameContest s.contestId) := by
    rw [hmap]
    apply updateFirst_append_cons
    · intro x hx
      obtain ⟨y, hy, rfl⟩ := List.mem_map.mp hx
      simpa using hL₁ y hy
    · simpa using hid
  have hresult : (legacyDeclareWinner db sid).2.submissions =
      updateFirst (fun t => t.id == sid) markWinner
        (db.submissions.map (clearIfSameContest s.contestId)) := by
    simp [legacyDeclareWinner, hs]
  refine ⟨by simp [legacyDeclareWinner, hs], ?_⟩
  intro t ht hct
  rw [hresult, hupd] at ht
  rcases List.mem_append.mp ht with h₁ | h₂
  · obtain ⟨y, hy, rfl⟩ := List.mem_map.mp h₁
    have hyc : y.contestId = s.contestId := by simpa using hct
    constructor
    · intro hwin
      exfalso
      simp [clearIfSameContest, hyc] at hwin
    · intro hid2
      exfalso
      have hyid : y.id = sid := by simpa using hid2
      have hfalse := hL₁ y hy
      rw [hyid] at hfalse
      simp at hfalse
  · rcases List.mem_cons.mp h₂ with rfl | h₃
    · simp [hsid]
    · obtain ⟨y, hy, rfl⟩ := List.mem_map.mp h₃
      have hyc : y.contestId = s.contestId := by simpa using hct
      constructor
      · intro hwin
        exfalso
        simp [clearIfSameContest, hyc] at hwin
      · intro hid2
        exfalso
        have hyid : y.id = sid := by simpa using hid2
        exact hnod2 (List.mem_map.mpr ⟨y, hy, by rw [hyid, hsid]⟩)

/-- Sample submission 2 already carrying the winner flag. -/
def sub2winner : Submission :=
  { sub2 with isWinner := true }

/-- Sample store where submission 2 of contest 1 is already flagged. -/
def exDB5 : DB :=
  { users := [alice, bob, carol], contests := [contest1], submissions := [sub1, sub2winner],
    payments := [] }

/-- Witness for C5: on a store where submission 2 already carries the flag,
the legacy route declares submission 1 the winner; afterwards exactly
submission 1 carries the flag within contest 1. -/
theorem legacy_winner_defensive_reset_witness :
    (legacyDeclareWinner exDB5 1).1 = LegacyWinnerResult.ok ∧
    exactlyWinner (legacyDeclareWinner exDB5 1).2 sub1.contestId 1 :=
  legacy_winner_defensive_reset exDB5 1 sub1 (by decide) (by decide)

theorem putContest_eq_some {db : DB} {id : Nat} {caller : String} {body : ContestPatch}
    {now : Nat} {c : Contest} (hc : findContest db id = some c) :
    putContest db id caller body now =
      if c.creatorEmail != caller || c.status != "pending" then
        (UpdateResult.forbidden, db)
      else
        (UpdateResult.ok,
          { db with contests := updateFirst (fun x => x.id == id) (applyPatch body now) db.contests }) := by
  unfold putContest
  rw [hc]

/-- C7: PUT /contests/:id succeeds exactly when the contest's status is
pending and the caller's email equals the creatorEmail; in every other
case — non-creator caller, or status confirmed / rejected / ended — it
fails Forbidden and the store is unchanged. -/
theorem putContest_pending_creator_only
    (db : DB) (id : Nat) (caller : String) (body : ContestPatch) (now : Nat) (c : Contest)
    (hc : findContest db id = some c) :
    ((putContest db id caller body now).1 = UpdateResult.ok ↔
      (c.creatorEmail = caller ∧ c.status = "pending")) ∧
    (c.creatorEmail ≠ caller ∨ c.status ≠ "pending" →
      putContest db id caller body now = (UpdateResult.forbidden, db)) := by
  rw [putContest_eq_some hc]
  by_cases h1 : c.creatorEmail = caller
  · by_cases h2 : c.status = "pending"
    · simp [h1, h2]
    · simp [h1, h2]
  · simp [h1]

/-- Sample pending contest created by alice. -/
def pendingContest : Contest :=
  { id := 2, name := "Essay", type := "writing", prize := "50", description := "an essay",
    creatorEmail := "alice@x", participants := 0, status := "pending", createdAt := 0,
    updatedAt := none, winner := none }

/-- Sample store holding only the pending contest. -/
def exDB7 : DB :=
  { users := [alice, bob], contests := [pendingContest], submissions := [], payments := [] }

/-- Sample PUT body renaming the contest. -/
def patch7 : ContestPatch :=
  { name := some "Better essay", type := none, prize := none, description := none }

/-- Witness for C7: on the pending sample contest, the creator's update is
Ok while a non-creator's update is Forbidden and leaves the store
unchanged. -/
theorem putContest_pending_creator_only_witness :
    (putContest exDB7 2 "alice@x" patch7 4).1 = UpdateResult.ok ∧
    putContest exDB7 2 "bob@x" patch7 4 = (UpdateResult.forbidden, exDB7) :=
  ⟨(putContest_pending_creator_only exDB7 2 "alice@x" patch7 4 pendingContest (by decide)).1.mpr
      ⟨by decide, by decide⟩,
   (putContest_pending_creator_only exDB7 2 "bob@x" patch7 4 pendingContest (by decide)).2
      (Or.inl (by decide))⟩

/-- C8 (code-bug evaluation): bob is authenticated but is not the creator
of contest 1, yet GET /submissions returns him the full joined submission
data of that contest; the handler compares nothing against the contest's
creator and has no Forbidden outcome at all.  The result is also identical
for any other authenticated caller. -/
theorem getSubmissions_no_owner_check :
    contest1.creatorEmail ≠ "bob@x" ∧
    getSubmissions exDB "bob@x" (some 1) =
      [{ sub := sub1, userName := some "Bob", userPhoto := some "b.png" },
       { sub := sub2, userName := some "Carol", userPhoto := some "c.png" }] ∧
    getSubmissions exDB "bob@x" (some 1) = getSubmissions exDB "alice@x" (some 1) := by
  decide

/-- C9: verifyAdmin decides from the freshly fetched stored role only: its
outcome is independent of the role claim inside the token, and a caller
whose stored role is not admin — or who has no user record — receives
Forbidden even when the token claims role admin. -/
theorem verifyAdmin_fresh_role (db : DB) (e r₁ r₂ : String) :
    verifyAdmin db { email := e, role := r₁ } = verifyAdmin db { email := e, role := r₂ } ∧
    (∀ u, findUser db e = some u → u.role ≠ "admin" →
      verifyAdmin db { email := e, role := "admin" } = AdminCheck.forbidden) ∧
    (findUser db e = none → verifyAdmin db { email := e, role := "admin" } = AdminCheck.forbidden) := by
  refine ⟨rfl, ?_, ?_⟩
  · intro u hu hr
    unfold verifyAdmin
    rw [hu]
    simp [hr]
  · intro hn
    unfold verifyAdmin
    rw [hn]

/-- Witness for C9: bob's stored role is user, so a token claiming admin is
still Forbidden and the outcome matches the user-claim token; an unknown
email is likewise Forbidden. -/
theorem verifyAdmin_fresh_role_witness :
    verifyAdmin exDB { email := "bob@x", role := "user" } =
      verifyAdmin exDB { email := "bob@x", role := "admin" } ∧
    verifyAdmin exDB { email := "bob@x", role := "admin" } = AdminCheck.forbidden ∧
    verifyAdmin exDB { email := "ghost@x", role := "admin" } = AdminCheck.forbidden :=
  ⟨(verifyAdmin_fresh_role exDB "bob@x" "user" "admin").1,
   (verifyAdmin_fresh_role exDB "bob@x" "user" "admin").2.1 bob (by decide) (by decide),
   (verifyAdmin_fresh_role exDB "ghost@x" "user" "admin").2.2 (by decide)⟩

/-- C10: POST /contests forces status pending, participants 0 and
creatorEmail equal to the authenticated principal's email on the inserted
contest: the outcome is independent of any client-supplied status,
participants or creatorEmail in the body, and the single appended document
carries exactly the forced values. -/
theorem postContest_forced_fields
    (db : DB) (caller : String) (body : ContestBody) (now newId : Nat) :
    (∀ st pc ce,
      postContest db caller { body with status := st, participants := pc, creatorEmail := ce } now newId =
        postContest db caller body now newId) ∧
    ∃ c, (postContest db caller body now newId).contests = db.contests ++ [c] ∧
      c.status = "pending" ∧ c.participants = 0 ∧ c.creatorEmail = caller := by
  constructor
  · intro st pc ce
    rfl
  · exact ⟨_, rfl, rfl, rfl, rfl⟩

end SkillSpire
